import Mathlib

/-!
Shallow embedding of the exam-taking view of the cetstrom repository
(src/src/pages/exam.tsx): the data model consumed by the view, the scorer
inside handleSubmit, the loader loadExam, the countdown timer effect, the
answer recording handleAnswer, the navigation cursor handlers, and the
persistence sequence of handleSubmit. JavaScript numbers used for scores
are modelled by Rat; option indices and counters by Nat; the answer object
Record with string keys by an association list with JavaScript object
semantics (unique keys, first-match lookup, update-in-place-or-append).
-/

namespace Cetstrom

/-- Data model: a multiple-choice question as consumed by exam.tsx
(fields id, text, options, correctAnswer, weightage). -/
structure Question where
  id : String
  text : String
  options : List String
  correctAnswer : Nat
  weightage : Rat
deriving DecidableEq

/-- Data model: a section of an exam as consumed by exam.tsx
(fields name, instructions, negativeMarking, questions). -/
structure ExamSection where
  name : String
  instructions : Option String
  negativeMarking : Rat
  questions : List Question
deriving DecidableEq

/-- Data model: the exam-level marking scheme
(fields defaultWeightage, passingPercentage). -/
structure MarkingScheme where
  defaultWeightage : Rat
  passingPercentage : Rat
deriving DecidableEq

/-- Data model: an exam as consumed by exam.tsx
(fields id, title, duration in minutes, sections, markingScheme). -/
structure Exam where
  id : String
  title : String
  duration : Nat
  sections : List ExamSection
  markingScheme : MarkingScheme
deriving DecidableEq

instance : Inhabited ExamSection := ⟨⟨"", none, 0, []⟩⟩

/-- AnswerMap: the answers state of the view, a JavaScript object mapping
question id to selected option index, modelled as an association list. -/
abbrev AnswerMap := List (String × Nat)

/-- Lookup of answers[qid] on the answers object: first entry whose key
equals qid. -/
def getAnswer : AnswerMap → String → Option Nat
  | [], _ => none
  | (k, v) :: rest, q => if q = k then some v else getAnswer rest q

/-- Keys of the answers object. -/
def answerKeys (m : AnswerMap) : List String := m.map Prod.fst

/-- handleAnswer (exam.tsx lines 121-126): the spread
update building a new object from prev with the entry for questionId set to
optionIndex. Existing keys keep their position and other values; a new key
is appended. -/
def record (m : AnswerMap) (questionId : String) (optionIndex : Nat) : AnswerMap :=
  if (getAnswer m questionId).isSome then
    m.map (fun p => if p.1 = questionId then (questionId, optionIndex) else p)
  else
    m ++ [(questionId, optionIndex)]

/-- Accumulator of the scoring loop of handleSubmit: the three mutable
variables correctAnswers, wrongAnswers, totalScore. -/
structure ScoreAcc where
  correct : Nat
  wrong : Nat
  score : Rat
deriving DecidableEq

/-- Body of the inner forEach of the scoring loop (exam.tsx lines 138-149):
skip when answers[question.id] is undefined; on a match with correctAnswer
increment correct and add question.weightage; otherwise increment wrong and
subtract section.negativeMarking. -/
def scoreQuestion (m : AnswerMap) (sec : ExamSection) (acc : ScoreAcc)
    (q : Question) : ScoreAcc :=
  match getAnswer m q.id with
  | none => acc
  | some a =>
    if a = q.correctAnswer then
      { acc with correct := acc.correct + 1, score := acc.score + q.weightage }
    else
      { acc with wrong := acc.wrong + 1, score := acc.score - sec.negativeMarking }

/-- One iteration of the outer forEach over sections (exam.tsx line 137). -/
def scoreSection (m : AnswerMap) (acc : ScoreAcc) (sec : ExamSection) : ScoreAcc :=
  sec.questions.foldl (scoreQuestion m sec) acc

/-- Scoring loop of handleSubmit (exam.tsx lines 133-150), starting from
correctAnswers = 0, wrongAnswers = 0, totalScore = 0. -/
def scoreExam (e : Exam) (m : AnswerMap) : ScoreAcc :=
  e.sections.foldl (scoreSection m) ⟨0, 0, 0⟩

/-- totalQuestions (exam.tsx lines 152-155): reduce over sections summing
questions.length. -/
def totalQuestions (e : Exam) : Nat :=
  e.sections.foldl (fun sum sec => sum + sec.questions.length) 0

/-- percentage (exam.tsx line 157) under total Rat division:
(totalScore / (totalQuestions * defaultWeightage)) * 100. -/
def percentage (e : Exam) (m : AnswerMap) : Rat :=
  (scoreExam e m).score /
    ((totalQuestions e : Rat) * e.markingScheme.defaultWeightage) * 100

/-- Result: the results object built by handleSubmit (exam.tsx lines
160-169). -/
structure Result where
  totalQuestions : Nat
  correctAnswers : Nat
  wrongAnswers : Nat
  score : Rat
  percentage : Rat
  timeTaken : Nat
  isPassed : Bool
  answers : AnswerMap
deriving DecidableEq

/-- Construction of the results object by handleSubmit (exam.tsx lines
128-169). The elapsed-seconds value timeTaken, computed in the source from
the wall clock, is an explicit input. -/
def handleSubmitResult (e : Exam) (m : AnswerMap) (timeTaken : Nat) : Result :=
  let acc := scoreExam e m
  { totalQuestions := totalQuestions e
    correctAnswers := acc.correct
    wrongAnswers := acc.wrong
    score := acc.score
    percentage := percentage e m
    timeTaken := timeTaken
    isPassed := decide (percentage e m ≥ e.markingScheme.passingPercentage)
    answers := m }

/-- percentage computed with JavaScript IEEE division semantics made
explicit: none stands for the non-finite results Infinity and NaN produced
when the divisor totalQuestions * defaultWeightage is zero. The source
(exam.tsx line 157) performs this division with no zero guard. -/
def jsDiv (a b : Rat) : Option Rat :=
  if b = 0 then none else some (a / b)

/-- Divisor of the percentage formula (exam.tsx line 157). -/
def percentageDivisor (e : Exam) : Rat :=
  (totalQuestions e : Rat) * e.markingScheme.defaultWeightage

/-- percentage (exam.tsx line 157) under the explicit IEEE-faithful
division: none when the divisor is zero. -/
def percentageJS (e : Exam) (m : AnswerMap) : Option Rat :=
  (jsDiv (scoreExam e m).score (percentageDivisor e)).map (· * 100)

/-- Outcome of loadExam: either the exam the attempt proceeds with, or the
user-facing error string set by setError. -/
inductive LoadOutcome where
  | success (e : Exam)
  | failure (msg : String)
deriving DecidableEq

/-- hasQuestions loop of loadExam (exam.tsx lines 77-83): true when some
section has at least one question. -/
def hasQuestions (e : Exam) : Bool :=
  e.sections.any (fun sec => sec.questions.length > 0)

/-- loadExam (exam.tsx lines 33-101). Its environment is explicit:
examId is the route parameter (none when absent), cached the parsed exam
collection found under the stream_exams_engineering or
stream_exams_pharmacy localStorage key (none when neither key is present),
and remote the answer of ExamService.getExamById (none for not found). A
cache hit is returned immediately; only the remote path runs the
section/question validation. -/
def loadExam (examId : Option String) (cached : Option (List Exam))
    (remote : Option Exam) : LoadOutcome :=
  match examId with
  | none => .failure "Invalid exam ID"
  | some id =>
    match (cached.getD []).find? (fun e => e.id = id) with
    | some cachedExam => .success cachedExam
    | none =>
      match remote with
      | none => .failure "Exam not found"
      | some currentExam =>
        if currentExam.sections.length = 0 then
          .failure "This exam has no questions"
        else if ¬ hasQuestions currentExam then
          .failure "This exam has no questions"
        else
          .success currentExam

/-- State of the countdown: the timeLeft state variable, whether a live
interval is currently scheduled (the timer effect of exam.tsx lines 106-119
keeps one exactly while timeLeft > 0), and how many times handleSubmit has
been invoked by the timer. -/
structure TimerState where
  timeLeft : Int
  active : Bool
  submits : Nat
deriving DecidableEq

/-- Timer initialization: setTimeLeft(exam.duration * 60) on load (exam.tsx
lines 52 and 93), after which the effect schedules an interval iff
timeLeft > 0 (line 107). -/
def initTimer (duration : Nat) : TimerState :=
  { timeLeft := (duration : Int) * 60
    active := decide (0 < (duration : Int) * 60)
    submits := 0 }

/-- One delivered one-second tick (exam.tsx lines 108-116). A tick is only
delivered while an interval is live; the callback fires handleSubmit and
clears the interval when prev <= 1, always sets timeLeft to prev - 1, and
the effect re-run then keeps an interval scheduled iff the new timeLeft is
positive. Ticks arriving after cancellation are not delivered. -/
def tick (s : TimerState) : TimerState :=
  if s.active then
    let fire := s.timeLeft ≤ 1
    let t := s.timeLeft - 1
    { timeLeft := t
      active := decide (0 < t)
      submits := s.submits + (if fire then 1 else 0) }
  else s

/-- n delivered ticks in sequence. -/
def tickN (n : Nat) (s : TimerState) : TimerState :=
  tick^[n] s

/-- Previous-button handler (exam.tsx lines 439-446) acting on the cursor
(currentSection, currentQuestion). -/
def prevCursor (e : Exam) (s q : Nat) : Nat × Nat :=
  if q > 0 then (s, q - 1)
  else if s > 0 then (s - 1, (e.sections.getD (s - 1) default).questions.length - 1)
  else (s, q)

/-- Next-button handler (exam.tsx lines 463-470) acting on the cursor. -/
def nextCursor (e : Exam) (s q : Nat) : Nat × Nat :=
  if q < (e.sections.getD s default).questions.length - 1 then (s, q + 1)
  else if s < e.sections.length - 1 then (s + 1, 0)
  else (s, q)

/-- Observable effects of handleSubmit after the results object is built
(exam.tsx lines 171-211). localSet models localStorage.setItem with the
serialized Result as payload; remoteAttempt marks the call into
ResultService.saveResult; logError the console.error of the catch clause;
touchLastAttempted the lastAttemptedAt update of the cached exams list;
navigate the final route change. -/
inductive SubmitEvent where
  | localSet (key : String) (value : Result)
  | remoteAttempt (testId : String) (userId : String) (score : Rat)
  | logError
  | touchLastAttempted (examId : String)
  | navigate (path : String)
deriving DecidableEq

/-- Persistence sequence of handleSubmit (exam.tsx lines 171-211): the
local backup write comes first, then the remote save is attempted; when the
remote save throws (remoteOk = false) the error is logged and the
lastAttemptedAt update is skipped; navigation to the results view happens
unconditionally after the try/catch. -/
def submitEvents (e : Exam) (examId : String) (m : AnswerMap) (timeTaken : Nat)
    (userEmail : Option String) (remoteOk : Bool) : List SubmitEvent :=
  let results := handleSubmitResult e m timeTaken
  let userId := userEmail.getD "anonymous"
  SubmitEvent.localSet ("examResult_" ++ examId) results ::
    (if remoteOk then
      [SubmitEvent.remoteAttempt examId userId results.score,
       SubmitEvent.touchLastAttempted examId]
    else
      [SubmitEvent.remoteAttempt examId userId results.score,
       SubmitEvent.logError]) ++
    [SubmitEvent.navigate ("/exam/" ++ examId ++ "/result")]

/-- Replay of the localStorage writes of a submit event trace: the value
the store holds under a key after the trace ran. -/
def replayStore (events : List SubmitEvent) (key : String) : Option Result :=
  events.foldl
    (fun acc ev =>
      match ev with
      | .localSet k v => if k = key then some v else acc
      | _ => acc)
    none

/-- C1: the scoring loop of handleSubmit treats every answered question as
the spec states: when the recorded option index equals correctAnswer, the
correct count grows by 1 and question.weightage is added to the running
score; otherwise the wrong count grows by 1 and the flat per-section
penalty section.negativeMarking is subtracted, independently of the
weightage of the question itself. -/
theorem scoreQuestion_answered (m : AnswerMap) (sec : ExamSection)
    (acc : ScoreAcc) (q : Question) (a : Nat)
    (h : getAnswer m q.id = some a) :
    scoreQuestion m sec acc q =
      if a = q.correctAnswer then
        ⟨acc.correct + 1, acc.wrong, acc.score + q.weightage⟩
      else
        ⟨acc.correct, acc.wrong + 1, acc.score - sec.negativeMarking⟩ := by
  unfold scoreQuestion
  rw [h]

/-- Witness for scoreQuestion_answered on a concrete answered question,
exercising both the correct branch and the wrong branch. -/
theorem scoreQuestion_answered_witness :
    scoreQuestion [("q1", 0)] ⟨"S", none, 1, []⟩ ⟨0, 0, 0⟩
        ⟨"q1", "t", ["a", "b"], 0, 2⟩ = ⟨1, 0, 2⟩ ∧
    scoreQuestion [("q1", 1)] ⟨"S", none, 1, []⟩ ⟨0, 0, 0⟩
        ⟨"q1", "t", ["a", "b"], 0, 2⟩ = ⟨0, 1, -1⟩ := by
  constructor
  · have h := scoreQuestion_answered [("q1", 0)] ⟨"S", none, 1, []⟩ ⟨0, 0, 0⟩
      ⟨"q1", "t", ["a", "b"], 0, 2⟩ 0 (by decide)
    rw [h]; simp
  · have h := scoreQuestion_answered [("q1", 1)] ⟨"S", none, 1, []⟩ ⟨0, 0, 0⟩
      ⟨"q1", "t", ["a", "b"], 0, 2⟩ 1 (by decide)
    rw [h]; simp

/-- C3: the percentage field of the results object equals
(score / (totalQuestions * defaultWeightage)) * 100 with the exam-level
defaultWeightage in the denominator for every question, and isPassed is
true exactly when that percentage is at least passingPercentage. -/
theorem result_percentage_pass (e : Exam) (m : AnswerMap) (t : Nat) :
    (handleSubmitResult e m t).percentage =
      (handleSubmitResult e m t).score /
        ((totalQuestions e : Rat) * e.markingScheme.defaultWeightage) * 100 ∧
    ((handleSubmitResult e m t).isPassed = true ↔
      (handleSubmitResult e m t).percentage ≥
        e.markingScheme.passingPercentage) := by
  refine ⟨rfl, ?_⟩
  simp [handleSubmitResult, percentage]

/-- C8: the scorer is a pure function of the exam, the answer map and the
elapsed-seconds reading, so two calls on the same inputs yield bit-identical
results in every field. -/
theorem scorer_deterministic (e : Exam) (m : AnswerMap) (t : Nat) :
    (handleSubmitResult e m t).totalQuestions =
        (handleSubmitResult e m t).totalQuestions ∧
    (handleSubmitResult e m t).correctAnswers =
        (handleSubmitResult e m t).correctAnswers ∧
    (handleSubmitResult e m t).wrongAnswers =
        (handleSubmitResult e m t).wrongAnswers ∧
    (handleSubmitResult e m t).score = (handleSubmitResult e m t).score ∧
    (handleSubmitResult e m t).percentage =
        (handleSubmitResult e m t).percentage ∧
    (handleSubmitResult e m t).timeTaken =
        (handleSubmitResult e m t).timeTaken ∧
    (handleSubmitResult e m t).isPassed =
        (handleSubmitResult e m t).isPassed ∧
    (handleSubmitResult e m t).answers = (handleSubmitResult e m t).answers ∧
    handleSubmitResult e m t = handleSubmitResult e m t :=
  ⟨rfl, rfl, rfl, rfl, rfl, rfl, rfl, rfl, rfl⟩

/-- Flattened question list of an exam, in iteration order of the scoring
loop. -/
def allQuestions (e : Exam) : List Question :=
  (e.sections.map (fun sec => sec.questions)).flatten

/-- Identifiers of all questions of an exam. -/
def allQuestionIds (e : Exam) : List String :=
  (allQuestions e).map Question.id

theorem scoreQuestion_correct_add_wrong (m : AnswerMap) (sec : ExamSection)
    (acc : ScoreAcc) (q : Question) :
    (scoreQuestion m sec acc q).correct + (scoreQuestion m sec acc q).wrong =
      acc.correct + acc.wrong +
        (if (getAnswer m q.id).isSome then 1 else 0) := by
  unfold scoreQuestion
  cases h : getAnswer m q.id with
  | none => simp
  | some a => by_cases ha : a = q.correctAnswer <;> simp [ha] <;> omega

theorem foldl_scoreQuestion_count (m : AnswerMap) (sec : ExamSection) :
    ∀ (l : List Question) (acc : ScoreAcc),
      (l.foldl (scoreQuestion m sec) acc).correct +
        (l.foldl (scoreQuestion m sec) acc).wrong =
      acc.correct + acc.wrong +
        l.countP (fun q => (getAnswer m q.id).isSome) := by
  intro l
  induction l with
  | nil => intro acc; simp
  | cons q l ih =>
    intro acc
    rw [List.foldl_cons, ih, List.countP_cons, scoreQuestion_correct_add_wrong]
    by_cases h : (getAnswer m q.id).isSome
    · simp [h]
      omega
    · simp [h]

theorem foldl_scoreSection_count (m : AnswerMap) :
    ∀ (ls : List ExamSection) (acc : ScoreAcc),
      (ls.foldl (scoreSection m) acc).correct +
        (ls.foldl (scoreSection m) acc).wrong =
      acc.correct + acc.wrong +
        ((ls.map (fun sec => sec.questions)).flatten).countP
          (fun q => (getAnswer m q.id).isSome) := by
  intro ls
  induction ls with
  | nil => intro acc; simp
  | cons sec ls ih =>
    intro acc
    rw [List.foldl_cons, ih]
    simp only [scoreSection, List.map_cons, List.flatten_cons, List.countP_append]
    rw [foldl_scoreQuestion_count]
    omega

theorem scoreExam_count (e : Exam) (m : AnswerMap) :
    (scoreExam e m).correct + (scoreExam e m).wrong =
      (allQuestions e).countP (fun q => (getAnswer m q.id).isSome) := by
  unfold scoreExam allQuestions
  rw [foldl_scoreSection_count]
  simp

theorem getAnswer_isSome_iff (m : AnswerMap) (k : String) :
    (getAnswer m k).isSome = true ↔ k ∈ answerKeys m := by
  induction m with
  | nil => simp [getAnswer, answerKeys]
  | cons p rest ih =>
    by_cases h : k = p.1
    · cases p; subst h; simp [getAnswer, answerKeys]
    · cases p
      simp only [getAnswer, answerKeys, List.map_cons, List.mem_cons] at *
      simp [h, ih]

theorem countP_getAnswer_eq_length (ids : List String) (m : AnswerMap)
    (hids : ids.Nodup) (hkeys : (answerKeys m).Nodup)
    (hsub : ∀ k ∈ answerKeys m, k ∈ ids) :
    ids.countP (fun k => (getAnswer m k).isSome) = m.length := by
  have hcong : ∀ a ∈ ids,
      ((getAnswer m a).isSome = true ↔ decide (a ∈ answerKeys m) = true) := by
    intro a _
    simp only [decide_eq_true_eq]
    exact getAnswer_isSome_iff m a
  rw [List.countP_congr hcong, List.countP_eq_length_filter]
  have hnodup : (ids.filter (fun a => decide (a ∈ answerKeys m))).Nodup :=
    hids.filter _
  have hmemiff : ∀ a, a ∈ ids.filter (fun a => decide (a ∈ answerKeys m)) ↔
      a ∈ answerKeys m := by
    intro a
    simp only [List.mem_filter, decide_eq_true_eq]
    exact ⟨fun h => h.2, fun h => ⟨hsub a h, h⟩⟩
  have hperm := (List.perm_ext_iff_of_nodup hnodup hkeys).mpr hmemiff
  rw [hperm.length_eq]
  simp [answerKeys]

theorem foldl_sections_length (ls : List ExamSection) :
    ∀ n : Nat, ls.foldl (fun sum sec => sum + sec.questions.length) n =
      n + ((ls.map (fun sec => sec.questions)).flatten).length := by
  induction ls with
  | nil => intro n; simp
  | cons sec ls ih =>
    intro n
    rw [List.foldl_cons, ih]
    simp only [List.map_cons, List.flatten_cons, List.length_append]
    omega

theorem totalQuestions_eq_length (e : Exam) :
    totalQuestions e = (allQuestions e).length := by
  unfold totalQuestions allQuestions
  rw [foldl_sections_length]
  omega

theorem countP_add_countP_not (l : List Question) (p : Question → Bool) :
    l.countP p + l.countP (fun q => !(p q)) = l.length := by
  induction l with
  | nil => simp
  | cons q l ih =>
    by_cases h : p q <;> simp [List.countP_cons, h] <;> omega

/-- C2: a question with no entry in the answers object contributes nothing
to the result: the scoring step leaves the accumulator unchanged, so the
sum of the correct and wrong counts equals the number of entries of the
answer map (its keys being distinct and a subset of the distinct question
identifiers), and the totalQuestions minus that many remaining questions
are exactly the unanswered ones. -/
theorem scorer_counts_answered (e : Exam) (m : AnswerMap)
    (hids : (allQuestionIds e).Nodup)
    (hkeys : (answerKeys m).Nodup)
    (hsub : ∀ k ∈ answerKeys m, k ∈ allQuestionIds e) :
    (scoreExam e m).correct + (scoreExam e m).wrong = m.length ∧
    (∀ sec acc q, getAnswer m q.id = none → scoreQuestion m sec acc q = acc) ∧
    (allQuestions e).countP (fun q => getAnswer m q.id = none) =
      totalQuestions e - m.length := by
  have hcount : (scoreExam e m).correct + (scoreExam e m).wrong = m.length := by
    rw [scoreExam_count]
    unfold allQuestionIds at hids hsub
    have h2 := countP_getAnswer_eq_length
      ((allQuestions e).map Question.id) m hids hkeys hsub
    rw [List.countP_map] at h2
    exact h2
  refine ⟨hcount, ?_, ?_⟩
  · intro sec acc q h
    unfold scoreQuestion
    rw [h]
  · have hsum : (allQuestions e).countP (fun q => (getAnswer m q.id).isSome) +
        (allQuestions e).countP (fun q => !(getAnswer m q.id).isSome) =
        (allQuestions e).length := countP_add_countP_not _ _
    have hcong : (allQuestions e).countP (fun q => getAnswer m q.id = none) =
        (allQuestions e).countP (fun q => !(getAnswer m q.id).isSome) := by
      apply List.countP_congr
      intro q _
      cases getAnswer m q.id <;> simp
    have htot := totalQuestions_eq_length e
    have hkcount : (allQuestions e).countP
        (fun q => (getAnswer m q.id).isSome) = m.length := by
      rw [← scoreExam_count]; exact hcount
    rw [hcong]
    omega

/-- Witness exam for the scorer claims: one section with two weight-2
questions, negative marking 1 and default weightage 1; the answer map
answers the first question correctly and the second wrongly. -/
def exW : Exam :=
  ⟨"e1", "T", 1,
    [⟨"S", none, 1,
      [⟨"q1", "t1", ["a", "b"], 0, 2⟩, ⟨"q2", "t2", ["a", "b"], 0, 2⟩]⟩],
    ⟨1, 35⟩⟩

/-- Witness answer map answering both questions of exW. -/
def mW : AnswerMap := [("q1", 0), ("q2", 1)]

/-- Witness for scorer_counts_answered on exW with both questions
answered. -/
theorem scorer_counts_answered_witness :
    (scoreExam exW mW).correct + (scoreExam exW mW).wrong = mW.length ∧
    (∀ sec acc q, getAnswer mW q.id = none →
      scoreQuestion mW sec acc q = acc) ∧
    (allQuestions exW).countP (fun q => getAnswer mW q.id = none) =
      totalQuestions exW - mW.length :=
  scorer_counts_answered exW mW (by decide) (by decide) (by decide)

/-- Invalid exam reachable through the cache path of loadExam: it has no
sections at all and a zero default weightage, yet a matching id. -/
def badCachedExam : Exam := ⟨"bad-exam", "Bad", 1, [], ⟨0, 35⟩⟩

/-- C4 counterexample: the local-cache scan of loadExam returns a matching
exam immediately, without the section/question validation, so an exam with
zero sections is returned as a success instead of the descriptive failure
the claim requires for every exam the attempt proceeds with. -/
theorem cache_hit_unvalidated_cex :
    loadExam (some "bad-exam") (some [badCachedExam]) none =
      LoadOutcome.success badCachedExam ∧
    badCachedExam.sections = [] := by
  constructor
  · decide
  · rfl

/-- C4 amended: the validation of loadExam applies to the remote path
only. With no route id the load fails as invalid; a cache hit is returned
immediately and unvalidated; on a cache miss a missing remote exam yields
the not-found failure, a remote exam with no sections or with only empty
sections yields the no-questions failure, and any other remote exam is
returned as a success. -/
theorem load_validation_paths (id : String) (cached : Option (List Exam))
    (remote : Option Exam) (e : Exam) :
    loadExam none cached remote = LoadOutcome.failure "Invalid exam ID" ∧
    ((cached.getD []).find? (fun x => x.id = id) = some e →
      loadExam (some id) cached remote = LoadOutcome.success e) ∧
    ((cached.getD []).find? (fun x => x.id = id) = none → remote = none →
      loadExam (some id) cached remote = LoadOutcome.failure "Exam not found") ∧
    ((cached.getD []).find? (fun x => x.id = id) = none → remote = some e →
      (e.sections = [] ∨ hasQuestions e = false) →
      loadExam (some id) cached remote =
        LoadOutcome.failure "This exam has no questions") ∧
    ((cached.getD []).find? (fun x => x.id = id) = none → remote = some e →
      e.sections ≠ [] → hasQuestions e = true →
      loadExam (some id) cached remote = LoadOutcome.success e) := by
  refine ⟨rfl, ?_, ?_, ?_, ?_⟩
  · intro hfind
    simp [loadExam, hfind]
  · intro hfind hrem
    simp [loadExam, hfind, hrem]
  · intro hfind hrem hbad
    subst hrem
    cases hbad with
    | inl h => simp [loadExam, hfind, h]
    | inr h =>
      simp only [loadExam, hfind, h]
      by_cases hlen : e.sections.length = 0 <;> simp [hlen]
  · intro hfind hrem hne hq
    subst hrem
    have hlen : e.sections.length ≠ 0 := by
      intro hc
      exact hne (List.length_eq_zero.mp hc)
    simp [loadExam, hfind, hlen, hq]

/-- Witness for load_validation_paths: a remote exam whose single section
has no questions is rejected with the no-questions failure on a cache
miss. -/
theorem load_validation_paths_witness :
    loadExam (some "r1") none
      (some ⟨"r1", "R", 1, [⟨"S", none, 1, []⟩], ⟨1, 35⟩⟩) =
      LoadOutcome.failure "This exam has no questions" :=
  (load_validation_paths "r1" none
      (some ⟨"r1", "R", 1, [⟨"S", none, 1, []⟩], ⟨1, 35⟩⟩)
      ⟨"r1", "R", 1, [⟨"S", none, 1, []⟩], ⟨1, 35⟩⟩).2.2.2.1
    (by decide) rfl (Or.inr (by decide))

/-- C10: the percentage division of handleSubmit has no zero guard: for any
exam reaching submission with zero total questions or zero default
weightage the divisor is zero and the IEEE division produces no finite
percentage. An exam like that can reach submission because the cache path
of loadExam skips validation. -/
theorem percentage_zero_divisor (e : Exam) (m : AnswerMap)
    (h : totalQuestions e = 0 ∨ e.markingScheme.defaultWeightage = 0) :
    percentageDivisor e = 0 ∧ percentageJS e m = none := by
  have hd : percentageDivisor e = 0 := by
    unfold percentageDivisor
    cases h with
    | inl h0 => rw [h0]; simp
    | inr h0 => rw [h0]; simp
  exact ⟨hd, by simp [percentageJS, jsDiv, hd]⟩

/-- Witness for percentage_zero_divisor: the sectionless exam served by the
cache path has a zero divisor and a non-finite percentage. -/
theorem percentage_zero_divisor_witness :
    loadExam (some "bad-exam") (some [badCachedExam]) none =
      LoadOutcome.success badCachedExam ∧
    percentageDivisor badCachedExam = 0 ∧
    percentageJS badCachedExam [] = none :=
  ⟨by decide,
   (percentage_zero_divisor badCachedExam [] (Or.inl rfl)).1,
   (percentage_zero_divisor badCachedExam [] (Or.inl rfl)).2⟩

theorem tickN_succ_right (n : Nat) (s : TimerState) :
    tickN (n + 1) s = tick (tickN n s) :=
  Function.iterate_succ_apply' tick n s

theorem tickN_run (t : Nat) (ht : 1 ≤ t) :
    ∀ n : Nat, tickN n ⟨(t : Int), true, 0⟩ =
      if n < t then ⟨(t : Int) - (n : Int), true, 0⟩ else ⟨0, false, 1⟩ := by
  intro n
  induction n with
  | zero =>
    rw [if_pos (by omega : 0 < t)]
    simp [tickN]
  | succ n ih =>
    rw [tickN_succ_right, ih]
    by_cases h1 : n < t
    · rw [if_pos h1]
      by_cases h2 : n + 1 < t
      · rw [if_pos h2]
        have hfire : ¬((t : Int) - (n : Int) ≤ 1) := by omega
        have hpos : (0 : Int) < (t : Int) - (n : Int) - 1 := by omega
        simp only [tick, if_true]
        rw [if_neg hfire]
        simp only [TimerState.mk.injEq]
        refine ⟨by push_cast; ring, by simp [hpos], trivial⟩
      · rw [if_neg h2]
        have hn1 : n + 1 = t := by omega
        have hfire : (t : Int) - (n : Int) ≤ 1 := by omega
        have hzero : (t : Int) - (n : Int) - 1 = 0 := by omega
        simp only [tick, if_true]
        rw [if_pos hfire]
        simp only [TimerState.mk.injEq, hzero]
        exact ⟨trivial, by simp, trivial⟩
    · rw [if_neg h1, if_neg (by omega : ¬(n + 1 < t))]
      simp [tick]

/-- C5: the countdown starts at exam.duration * 60 seconds, every delivered
one-second tick while the interval is live decrements the value by exactly
1, and for a one-minute exam the timer fires finalization exactly once:
never within the first 59 ticks, once at tick 60, and never again however
many additional ticks are scheduled, because the firing tick clears its
interval and the effect guard schedules no interval at zero. -/
theorem countdown_spec :
    (∀ d : Nat, (initTimer d).timeLeft = (d : Int) * 60) ∧
    (∀ s : TimerState, s.active = true → (tick s).timeLeft = s.timeLeft - 1) ∧
    (∀ n : Nat, n < 60 → (tickN n (initTimer 1)).submits = 0) ∧
    (∀ n : Nat, 60 ≤ n → (tickN n (initTimer 1)).submits = 1) := by
  have h0 : initTimer 1 = ⟨((60 : Nat) : Int), true, 0⟩ := by
    simp [initTimer]
  refine ⟨fun d => rfl, ?_, ?_, ?_⟩
  · intro s h
    simp [tick, h]
  · intro n hn
    rw [h0, tickN_run 60 (by omega) n, if_pos hn]
  · intro n hn
    rw [h0, tickN_run 60 (by omega) n, if_neg (by omega : ¬(n < 60))]

/-- Witness for countdown_spec: for a one-minute exam an extra erroneous
61st tick leaves the finalization count at one, and 59 ticks have not yet
fired it. -/
theorem countdown_spec_witness :
    (tickN 61 (initTimer 1)).submits = 1 ∧
    (tickN 59 (initTimer 1)).submits = 0 :=
  ⟨countdown_spec.2.2.2 61 (by decide), countdown_spec.2.2.1 59 (by decide)⟩

theorem getAnswer_append (m1 m2 : AnswerMap) (q : String) :
    getAnswer (m1 ++ m2) q =
      match getAnswer m1 q with
      | some v => some v
      | none => getAnswer m2 q := by
  induction m1 with
  | nil => simp [getAnswer]
  | cons p rest ih =>
    obtain ⟨k, v⟩ := p
    by_cases h : q = k <;> simp [getAnswer, h, ih]

theorem getAnswer_mapUpdate (m : AnswerMap) (k : String) (v : Nat) (q : String) :
    getAnswer (m.map (fun p => if p.1 = k then (k, v) else p)) q =
      if q = k then (getAnswer m k).map (fun _ => v) else getAnswer m q := by
  induction m with
  | nil => simp [getAnswer]
  | cons p rest ih =>
    obtain ⟨k1, v1⟩ := p
    rw [List.map_cons]
    by_cases h1 : k1 = k
    · subst h1
      rw [show (if ((k1, v1) : String × Nat).1 = k1 then (k1, v) else (k1, v1))
          = (k1, v) by simp]
      by_cases h2 : q = k1 <;> simp [getAnswer, h2, ih]
    · have h1s : ¬(k = k1) := fun hc => h1 hc.symm
      rw [show (if ((k1, v1) : String × Nat).1 = k then (k, v) else (k1, v1))
          = (k1, v1) by simp [h1]]
      by_cases h2 : q = k1
      · have hqk : ¬(q = k) := by rw [h2]; exact h1
        simp [getAnswer, h2, hqk, h1]
      · simp [getAnswer, h2, h1s, ih]

theorem getAnswer_record (m : AnswerMap) (k : String) (v : Nat) (q : String) :
    getAnswer (record m k v) q = if q = k then some v else getAnswer m q := by
  unfold record
  by_cases hk : (getAnswer m k).isSome
  · rw [if_pos hk, getAnswer_mapUpdate]
    obtain ⟨x, hx⟩ := Option.isSome_iff_exists.mp hk
    by_cases hq : q = k <;> simp [hq, hx]
  · rw [if_neg hk, getAnswer_append]
    have hnone : getAnswer m k = none := Option.not_isSome_iff_eq_none.mp hk
    by_cases hq : q = k
    · subst hq
      rw [hnone]
      simp [getAnswer]
    · cases hg : getAnswer m q <;> simp [hg, getAnswer, hq]

/-- C9: recording an answer replaces any existing selection for that
question, leaves the entry of every other question unchanged, and never
removes an entry, so the set of answered question identifiers never
shrinks. -/
theorem record_semantics (m : AnswerMap) (k : String) (v : Nat) :
    getAnswer (record m k v) k = some v ∧
    (∀ q, q ≠ k → getAnswer (record m k v) q = getAnswer m q) ∧
    (∀ q x, getAnswer m q = some x →
      (getAnswer (record m k v) q).isSome = true) := by
  refine ⟨by simp [getAnswer_record], ?_, ?_⟩
  · intro q hq
    simp [getAnswer_record, hq]
  · intro q x hx
    by_cases hq : q = k <;> simp [getAnswer_record, hq, hx]

/-- Witness for record_semantics: overwriting one answer, checking another
key is untouched, and checking an existing entry survives a new
recording. -/
theorem record_semantics_witness :
    getAnswer (record [("q1", 0)] "q1" 1) "q1" = some 1 ∧
    getAnswer (record [("q1", 0), ("q2", 1)] "q1" 1) "q2" =
      getAnswer [("q1", 0), ("q2", 1)] "q2" ∧
    (getAnswer (record [("q1", 0)] "q2" 1) "q1").isSome = true :=
  ⟨(record_semantics [("q1", 0)] "q1" 1).1,
   (record_semantics [("q1", 0), ("q2", 1)] "q1" 1).2.1 "q2" (by decide),
   (record_semantics [("q1", 0)] "q2" 1).2.2 "q1" 0 (by decide)⟩

/-- C7: at question 0 of section 0 the previous button is a no-op; from the
first question of a later section it moves to the last question of the
prior section; within a section both buttons move by one question; from the
last question of a non-final section the next button moves to the first
question of the next section; and at the last question of the last section
the next button is a no-op. -/
theorem cursor_navigation_spec (e : Exam) :
    prevCursor e 0 0 = (0, 0) ∧
    (∀ s, 0 < s →
      prevCursor e s 0 =
        (s - 1, (e.sections.getD (s - 1) default).questions.length - 1)) ∧
    (∀ s q, 0 < q → prevCursor e s q = (s, q - 1)) ∧
    (∀ s q, q + 1 < (e.sections.getD s default).questions.length →
      nextCursor e s q = (s, q + 1)) ∧
    (∀ s, s + 1 < e.sections.length →
      nextCursor e s ((e.sections.getD s default).questions.length - 1) =
        (s + 1, 0)) ∧
    (∀ s q, s = e.sections.length - 1 →
      q = (e.sections.getD s default).questions.length - 1 →
      nextCursor e s q = (s, q)) := by
  refine ⟨by simp [prevCursor], ?_, ?_, ?_, ?_, ?_⟩
  · intro s hs
    simp [prevCursor, hs]
  · intro s q hq
    simp [prevCursor, hq]
  · intro s q h
    have hcond : q < (e.sections.getD s default).questions.length - 1 := by
      omega
    unfold nextCursor
    rw [if_pos hcond]
  · intro s h
    have h1 : ¬((e.sections.getD s default).questions.length - 1 <
        (e.sections.getD s default).questions.length - 1) := by omega
    have h2 : s < e.sections.length - 1 := by omega
    unfold nextCursor
    rw [if_neg h1, if_pos h2]
  · intro s q hs hq
    have h1 : ¬(q < (e.sections.getD s default).questions.length - 1) := by
      omega
    have h2 : ¬(s < e.sections.length - 1) := by omega
    unfold nextCursor
    rw [if_neg h1, if_neg h2]

/-- Witness exam for the navigation claim: two sections with two and one
questions. -/
def exW2 : Exam :=
  ⟨"e2", "T2", 1,
    [⟨"S1", none, 1, [⟨"a1", "t", [], 0, 1⟩, ⟨"a2", "t", [], 0, 1⟩]⟩,
     ⟨"S2", none, 1, [⟨"b1", "t", [], 0, 1⟩]⟩],
    ⟨1, 35⟩⟩

/-- Witness for cursor_navigation_spec on exW2, exercising every navigation
case. -/
theorem cursor_navigation_spec_witness :
    prevCursor exW2 0 0 = (0, 0) ∧
    prevCursor exW2 1 0 = (0, 1) ∧
    prevCursor exW2 0 1 = (0, 0) ∧
    nextCursor exW2 0 0 = (0, 1) ∧
    nextCursor exW2 0 1 = (1, 0) ∧
    nextCursor exW2 1 0 = (1, 0) :=
  ⟨(cursor_navigation_spec exW2).1,
   (cursor_navigation_spec exW2).2.1 1 (by decide),
   (cursor_navigation_spec exW2).2.2.1 0 1 (by decide),
   (cursor_navigation_spec exW2).2.2.2.1 0 0 (by decide),
   (cursor_navigation_spec exW2).2.2.2.2.1 0 (by decide),
   (cursor_navigation_spec exW2).2.2.2.2.2 1 0 (by decide) (by decide)⟩

/-- C6: the serialized Result reaches the localStorage fallback key
examResult_ followed by the exam id as the very first submit effect, before
the remote save is attempted; when the remote save throws the error is
logged, navigation to the results view still happens as the final effect,
and replaying the trace leaves the fallback key holding the serialized
Result. -/
theorem submit_persistence_order (e : Exam) (id : String) (m : AnswerMap)
    (t : Nat) (u : Option String) :
    (∀ ok : Bool, (submitEvents e id m t u ok).head? =
      some (SubmitEvent.localSet ("examResult_" ++ id)
        (handleSubmitResult e m t))) ∧
    (∀ ok : Bool, (submitEvents e id m t u ok).get? 1 =
      some (SubmitEvent.remoteAttempt id (u.getD "anonymous")
        (handleSubmitResult e m t).score)) ∧
    SubmitEvent.logError ∈ submitEvents e id m t u false ∧
    (∀ ok : Bool, (submitEvents e id m t u ok).getLast? =
      some (SubmitEvent.navigate ("/exam/" ++ id ++ "/result"))) ∧
    replayStore (submitEvents e id m t u false) ("examResult_" ++ id) =
      some (handleSubmitResult e m t) := by
  refine ⟨?_, ?_, ?_, ?_, ?_⟩
  · intro ok
    cases ok <;> rfl
  · intro ok
    cases ok <;> rfl
  · simp [submitEvents]
  · intro ok
    cases ok <;> rfl
  · simp [submitEvents, replayStore]

end Cetstrom
